import Mathlib

/-!
Shallow embedding of the crosvm fragments under verification:
* `src/devices/src/virtio/balloon.rs` — the virtio balloon device's
  configuration-register accessors and its command-socket handler.
* `src/cros_async/src/read_vec.rs` — the `ReadVec` future built on the
  uring completion state machine.

Machine integers are modelled as `Nat`/`Int` with explicit reductions
modulo `2^32` / `2^64` at the points where the Rust code truncates or
wraps.
-/

namespace Crosvm

/-- `u32::MAX + 1`. -/
def U32M : Nat := 4294967296

/-- `u64::MAX + 1` (also `usize::MAX + 1`; crosvm targets 64-bit). -/
def U64M : Nat := 18446744073709551616

/-- `i32::MIN.natAbs = 2^31`. -/
def I32M : Nat := 2147483648

/-- `byteorder::LittleEndian` `read_u32` over four bytes (bytes are `u8`,
modelled as `Nat` reduced mod 256). -/
def le32 (b0 b1 b2 b3 : Nat) : Nat :=
  b0 % 256 + b1 % 256 * 256 + b2 % 256 * 65536 + b3 % 256 * 16777216

/-- The four little-endian bytes of a `u32` value, as produced by
`write_u32::<LittleEndian>`. -/
def u32bytes (v : Nat) : List Nat :=
  [v % 256, v / 256 % 256, v / 65536 % 256, v / 16777216 % 256]

/-- `BalloonConfig` from balloon.rs: `num_pages` and `actual_pages` are
`AtomicUsize`; the balloon worker and device thread accesses are modelled
as plain sequential state updates. -/
structure BalloonConfig where
  num_pages : Nat
  actual_pages : Nat
deriving DecidableEq

/-- `Balloon::write_config(offset, data)`: only `actual` pages may be
written by the guest; any other offset or length is ignored.  The `u32`
is read little-endian from the four data bytes. -/
def Balloon.write_config (cfg : BalloonConfig) (offset : Nat) (data : List Nat) :
    BalloonConfig :=
  if offset ≠ 4 ∨ data.length ≠ 4 then cfg
  else
    match data with
    | [b0, b1, b2, b3] => { cfg with actual_pages := le32 b0 b1 b2 b3 }
    | _ => cfg

/-- The 8-byte config area assembled by `Balloon::read_config`:
`num_pages as u32` then `actual_pages as u32`, both little-endian. -/
def configBytes (cfg : BalloonConfig) : List Nat :=
  u32bytes (cfg.num_pages % U32M) ++ u32bytes (cfg.actual_pages % U32M)

/-- `u64::checked_add`. -/
def checkedAdd64 (a b : Nat) : Option Nat :=
  if a + b < U64M then some (a + b) else none

/-- `std::io::Write` for `&mut [u8]`: copies `min (src.length) (dst.length)`
bytes to the front of `dst`, leaving the tail unchanged. -/
def sliceWrite (src dst : List Nat) : List Nat :=
  src.take dst.length ++ dst.drop (min src.length dst.length)

/-- `Balloon::read_config(offset, data)`: returns the new contents of the
caller's `data` slice.  Offsets ≥ 8 are ignored; otherwise the bytes
`config[offset .. min (offset + data.len) 8]` are copied to the front of
`data` (nothing is copied if `offset + data.len` overflows a `u64`). -/
def Balloon.read_config (cfg : BalloonConfig) (offset : Nat) (data : List Nat) :
    List Nat :=
  if 8 ≤ offset then data
  else
    let config := configBytes cfg
    match checkedAdd64 offset data.length with
    | none => data
    | some e => sliceWrite ((config.drop offset).take (min e 8 - offset)) data

/-- `buf.read_i32::<LittleEndian>()`: the four bytes as an `i32` value
(an integer in `[-2^31, 2^31)`). -/
def i32ofLe (b0 b1 b2 b3 : Nat) : Int :=
  let u := le32 b0 b1 b2 b3
  if u < I32M then (u : Int) else (u : Int) - (U32M : Int)

/-- `num_pages as i32` where `num_pages : usize`: truncate to 32 bits and
reinterpret as signed. -/
def usizeAsI32 (n : Nat) : Int :=
  let r := n % U32M
  if r < I32M then (r : Int) else (r : Int) - (U32M : Int)

/-- `i32::abs` with the release-build overflow semantics the shipped
binary has: `i32::MIN.abs()` wraps to `i32::MIN` (a debug build would
panic at the same input). -/
def i32abs (x : Int) : Int :=
  if x = -(I32M : Int) then x else (x.natAbs : Int)

/-- `increment as usize`: sign-extend the `i32` to 64 bits and
reinterpret as unsigned (wrap mod `2^64`). -/
def i32AsUsize (x : Int) : Nat := (x % (U64M : Int)).toNat

/-- Outcome of one `POLL_COMMAND_SOCKET` iteration of `Worker::run`:
the updated shared config and whether `signal_config_changed` ran. -/
structure SocketStep where
  config : BalloonConfig
  configChanged : Bool
deriving DecidableEq

/-- The `POLL_COMMAND_SOCKET` arm of `Worker::run`: `buf` is the 4-byte
receive buffer and `count` the number of bytes `recv` returned.  A
negative increment whose (wrapping) absolute value exceeds
`num_pages as i32` is skipped; otherwise `num_pages` is updated with a
wrapping `fetch_add(increment as usize)` and a config-changed interrupt
is signalled. -/
def Worker.handleCommandSocket (cfg : BalloonConfig) (buf : List Nat) (count : Nat) :
    SocketStep :=
  if count = 4 then
    match buf with
    | [b0, b1, b2, b3] =>
      let increment := i32ofLe b0 b1 b2 b3
      let num_pages := usizeAsI32 cfg.num_pages
      if increment < 0 ∧ i32abs increment > num_pages then ⟨cfg, false⟩
      else ⟨{ cfg with num_pages := (cfg.num_pages + i32AsUsize increment) % U64M }, true⟩
    | _ => ⟨cfg, false⟩
  else ⟨cfg, false⟩

/-! ## `cros_async` ReadVec future (src/cros_async/src/read_vec.rs)

`read_vec.rs` is in the sources; its dependencies `uring_fut.rs`
(`UringFutState`), `io_source.rs` (`IoSource::read_to_mem` /
`poll_complete`) and `uring_mem.rs` (`VecIoWrapper`) are not, so those
are modelled from the spec (§4.1–§4.3 of the design document).

The `Rc<VecIoWrapper>` cell is modelled explicitly: `World.buf` is the
wrapped allocation (an identity tag plus byte contents — the model never
re-allocates, mirroring that `VecIoWrapper::from(vec)` and `.into()`
move the same `Vec`), and `World.refs` is the cell's strong count.
Every `Rc::clone` / drop site of the source increments / decrements
`refs`. -/

/-- Error type of `uring_executor::Result` (opaque here; only identity
of the error value matters to the claims). -/
structure UErr where
  code : Nat
deriving DecidableEq

/-- Operation token (`WakerToken`): opaque correlation value. -/
abbrev Token := Nat

/-- `MemVec` from uring_executor: one scatter descriptor, an
(offset, length) pair relative to the buffer's start. -/
structure MemVec where
  offset : Nat
  len : Nat
deriving DecidableEq

/-- `std::task::Poll`. -/
inductive Poll (α : Type) where
  | pending : Poll α
  | ready : α → Poll α
deriving DecidableEq

/-- The wrapped `Vec<u8>` allocation: an identity tag (standing for the
address of the heap allocation) plus the byte contents.  In-place
writes update `data` and never touch `id`. -/
structure Alloc where
  id : Nat
  data : List Nat
deriving DecidableEq

/-- Modelled from the spec (§3, §4.3): `UringFutState` from
`uring_fut.rs` (not in src/).  `init` is *NotStarted* (holds the
submission seed), `wait` is *InFlight* (holds the token and carry
data), `done` is the terminal shape after the result was extracted, and
`processing` is the transient value left by `mem::replace` during a
poll. -/
inductive UringFutState (T W : Type) where
  | init : T → UringFutState T W
  | wait : Token → W → UringFutState T W
  | done : UringFutState T W
  | processing : UringFutState T W
deriving DecidableEq

/-- Rank of a state in the one-directional progression
NotStarted → InFlight → terminal. -/
def UringFutState.rank {T W : Type} : UringFutState T W → Nat
  | .init _ => 0
  | .wait _ _ => 1
  | .done => 2
  | .processing => 2

/-- Modelled from the spec (§4.3): `UringFutState::advance` from
`uring_fut.rs` (not in src/).  From *NotStarted*, run the submit
closure: on failure propagate the error (nothing was submitted); on
success move to *InFlight* and report `pending`.  From *InFlight*, run
the poll closure: `pending` keeps the state, `ready r` moves to the
terminal shape and yields `(r, carry)`.  Advancing a terminal state is
a caller error (`none` models the resulting panic).  Side effects of
the closures are threaded through an explicit state `S`. -/
def UringFutState.advance {T W S : Type}
    (state : UringFutState T W)
    (submit : T → S → Except UErr (Token × W × S))
    (pollOp : Token → S → Poll (Except UErr Nat) × S)
    (s : S) :
    Option (Except UErr ((UringFutState T W × Poll ((Except UErr Nat) × W)) × S)) :=
  match state with
  | .init t =>
    match submit t s with
    | .error e => some (.error e)
    | .ok (tok, w, s') => some (.ok ((.wait tok w, .pending), s'))
  | .wait tok w =>
    match pollOp tok s with
    | (.pending, s') => some (.ok ((.wait tok w, .pending), s'))
    | (.ready r, s') => some (.ok ((.done, .ready (r, w)), s'))
  | .done => none
  | .processing => none

/-- The mutable world surrounding one `ReadVec` future: the single
`Rc<VecIoWrapper>` cell (`buf` and its strong count `refs`), the
operation the resource currently has outstanding, and how many
completion polls the resource has answered so far. -/
structure World where
  buf : Alloc
  refs : Nat
  pendingOp : Option (Nat × List MemVec)
  cPolls : Nat
deriving DecidableEq

/-- Modelled from the spec (§4.2): a deterministic script for a
backing resource.  `submitOk` says whether `read_to_mem` accepts the
submission, `submitErr` is the rejection error, `content p` is the byte
of the source at file position `p`, and `ready k` is the resource's
answer to the `k`-th completion poll (`none` = still pending). -/
structure ScriptedSource where
  submitOk : Bool
  submitErr : UErr
  content : Nat → Nat
  ready : Nat → Option (Except UErr Nat)

/-- Write `n` source bytes starting at file position `fp` into
`data[off .. off + n)` (in-place scatter-segment write). -/
def writeRangeAux (content : Nat → Nat) (fp off n i : Nat) : List Nat → List Nat
  | [] => []
  | b :: rest =>
    (if off ≤ i ∧ i < off + n then content (fp + (i - off)) % 256 else b)
      :: writeRangeAux content fp off n (i + 1) rest

/-- In-place write of one scatter segment. -/
def writeRange (content : Nat → Nat) (fp off n : Nat) (data : List Nat) : List Nat :=
  writeRangeAux content fp off n 0 data

/-- The kernel's effect of a completed scatter read that transferred
`budget` bytes: descriptors are filled in order with consecutive source
bytes starting at file offset `fo`. -/
def writeDescs (content : Nat → Nat) (fo : Nat) (descs : List MemVec) (budget : Nat)
    (data : List Nat) : List Nat :=
  match descs with
  | [] => data
  | d :: rest =>
    let n := min d.len budget
    writeDescs content (fo + d.len) rest (budget - n)
      (writeRange content fo d.offset n data)

/-- Modelled from the spec (§4.2): `IoSource::read_to_mem` (io_source.rs
not in src/).  On acceptance the resource retains the cloned
`Rc<VecIoWrapper>` it was handed (strong count +1) and records the
operation; on rejection nothing is enqueued and the clone is dropped
(net count unchanged). -/
def read_to_mem (src : ScriptedSource) (fileOffset : Nat) (descs : List MemVec)
    (w : World) : Except UErr (Token × World) :=
  if src.submitOk then
    .ok ((0 : Token), { w with refs := w.refs + 1, pendingOp := some (fileOffset, descs) })
  else
    .error src.submitErr

/-- Modelled from the spec (§4.2): `IoSource::poll_complete` (io_source.rs
not in src/).  Non-blocking: consults the script at the current poll
index.  When the completion is reaped the resource releases its
reference (strong count −1) and, on success, the transferred bytes are
in the buffer. -/
def poll_complete (src : ScriptedSource) (_tok : Token) (w : World) :
    Poll (Except UErr Nat) × World :=
  match src.ready w.cPolls with
  | none => (.pending, { w with cPolls := w.cPolls + 1 })
  | some r =>
    match r, w.pendingOp with
    | .ok n, some (fo, descs) =>
      (.ready (.ok n),
       { w with buf := { w.buf with data := writeDescs src.content fo descs n w.buf.data },
                refs := w.refs - 1, pendingOp := none, cPolls := w.cPolls + 1 })
    | .ok n, none =>
      (.ready (.ok n), { w with refs := w.refs - 1, pendingOp := none, cPolls := w.cPolls + 1 })
    | .error e, _ =>
      (.ready (.error e), { w with refs := w.refs - 1, pendingOp := none, cPolls := w.cPolls + 1 })

/-- The submit closure of `ReadVec::poll` (read_vec.rs lines 41–53):
clone the wrapper for the resource and submit one descriptor
`{offset: 0, len: wrapped_vec.len()}` at the caller's file offset; the
original handle is kept as the carry. -/
def ReadVec.submitFn (src : ScriptedSource) (fileOffset : Nat) (w : World) :
    Except UErr (Token × Unit × World) :=
  match read_to_mem src fileOffset [⟨0, w.buf.data.length⟩] w with
  | .error e => .error e
  | .ok (tok, w') => .ok (tok, (), w')

/-- `ReadVec<'a, R>` from read_vec.rs: the reader is the scripted
source passed to `poll`; the future itself holds only the state
machine.  Seed = the `u64` file offset (the `Rc` half of the seed and
the carry live in `World`, see above). -/
structure ReadVec where
  state : UringFutState Nat Unit
deriving DecidableEq

/-- `ReadVec::new(reader, file_offset, vec)` (read_vec.rs lines 27–32):
fresh future in the *NotStarted* state holding its submission
arguments. -/
def ReadVec.new (fileOffset : Nat) : ReadVec :=
  ⟨.init fileOffset⟩

/-- `Rc::new(VecIoWrapper::from(vec))` performed by `ReadVec::new`: a
fresh cell with strong count 1 around the caller's allocation, with no
operation outstanding. -/
def World.new (bufId : Nat) (data : List Nat) : World :=
  ⟨⟨bufId, data⟩, 1, none, 0⟩

/-- Decidable equality for `Except` values (not provided by the core
library for this toolchain). -/
def exceptDecEq {ε α : Type} [DecidableEq ε] [DecidableEq α] :
    (a b : Except ε α) → Decidable (a = b)
  | .error e, .error f =>
    if h : e = f then isTrue (congrArg Except.error h)
    else isFalse (fun hh => h (Except.error.inj hh))
  | .ok x, .ok y =>
    if h : x = y then isTrue (congrArg Except.ok h)
    else isFalse (fun hh => h (Except.ok.inj hh))
  | .error _, .ok _ => isFalse (fun hh => Except.noConfusion hh)
  | .ok _, .error _ => isFalse (fun hh => Except.noConfusion hh)

instance {ε α : Type} [DecidableEq ε] [DecidableEq α] : DecidableEq (Except ε α) :=
  exceptDecEq

/-- Observable outcome of one `Future::poll` call.  `fatal` models a
panic (`expect` / polling a terminal state), the loud process-level
assertion of the spec's `InternalInvariantError`. -/
inductive PollOut where
  | pending : PollOut
  | ready : Except UErr Alloc → PollOut
  | fatal : String → PollOut
deriving DecidableEq

/-- `<ReadVec as Future>::poll` (read_vec.rs lines 38–71).  The
`mem::replace(&mut self.state, Processing)` is folded into the match:
the resulting future holds `processing` unless `advance` produced a new
state (the early `return Poll::Ready(Err(e))` on submission failure
skips the `self.state = new_state` write).  On a successful completion
`Rc::try_unwrap(wrapped_vec).expect("too many refs on vec")` succeeds
exactly when the strong count is 1, consuming the cell; on a completion
error the carry handle is dropped. -/
def ReadVec.poll (src : ScriptedSource) (rv : ReadVec) (w : World) :
    PollOut × ReadVec × World :=
  match UringFutState.advance rv.state (ReadVec.submitFn src) (poll_complete src) w with
  | none => (.fatal "future polled after completion", ⟨.processing⟩, w)
  | some (.error e) => (.ready (.error e), ⟨.processing⟩, w)
  | some (.ok ((newState, ret), w')) =>
    match ret with
    | .pending => (.pending, ⟨newState⟩, w')
    | .ready (.ok _, _) =>
      if w'.refs = 1 then
        (.ready (.ok w'.buf), ⟨newState⟩, { w' with refs := 0 })
      else
        (.fatal "too many refs on vec", ⟨newState⟩, w')
    | .ready (.error e, _) =>
      (.ready (.error e), ⟨newState⟩, { w' with refs := w'.refs - 1 })

/-- `Rc::clone` on the wrapper performed by an outside party (the
"artificially held second reference" of the spec's scenario). -/
def World.cloneWrapper (w : World) : World :=
  { w with refs := w.refs + 1 }

/-- The single-future driver (`run_one`): poll until the future is no
longer pending, with fuel bounding the number of polls. -/
def driveRV (src : ScriptedSource) : Nat → ReadVec → World →
    Option (PollOut × ReadVec × World)
  | 0, _, _ => none
  | fuel + 1, rv, w =>
    match ReadVec.poll src rv w with
    | (.pending, rv', w') => driveRV src fuel rv' w'
    | out => some out

/-- `m` consecutive polls of the same future, collecting each call's
outcome. -/
def pollIter (src : ScriptedSource) : Nat → ReadVec → World →
    List PollOut × ReadVec × World
  | 0, rv, w => ([], rv, w)
  | m + 1, rv, w =>
    match ReadVec.poll src rv w with
    | (out, rv', w') =>
      match pollIter src m rv' w' with
      | (outs, rv'', w'') => (out :: outs, rv'', w'')

/-- An always-zero source that accepts submission and completes the
32-byte transfer on its first completion poll (the `/dev/zero` of the
spec's scenario). -/
def zeroSrc : ScriptedSource :=
  ⟨true, ⟨0⟩, fun _ => 0, fun j => if j = 0 then some (.ok 32) else none⟩

/-- A source whose submission queue rejects every request. -/
def failSrc : ScriptedSource :=
  ⟨false, ⟨11⟩, fun _ => 0, fun _ => none⟩

/-- A source that accepts the submission and then reports a kernel
failure on every completion poll. -/
def errSrc : ScriptedSource :=
  ⟨true, ⟨0⟩, fun _ => 0, fun _ => some (.error ⟨77⟩)⟩

/-- A source whose operation never completes. -/
def stallSrc : ScriptedSource :=
  ⟨true, ⟨0⟩, fun _ => 0, fun _ => none⟩

/-! # Theorems -/

/-- **C8**: `Balloon::write_config` modifies only `actual_pages`, and
only when `offset = 4` and `data.length = 4`; for every other offset or
length it changes no state at all, so `num_pages` is never writable by
the guest through the config interface. -/
theorem write_config_only_actual_pages (cfg : BalloonConfig) (offset : Nat)
    (data : List Nat) :
    (Balloon.write_config cfg offset data).num_pages = cfg.num_pages ∧
    (¬(offset = 4 ∧ data.length = 4) → Balloon.write_config cfg offset data = cfg) := by
  constructor
  · unfold Balloon.write_config
    split
    · rfl
    · split <;> rfl
  · intro h
    unfold Balloon.write_config
    split
    · rfl
    · next hcond =>
      push_neg at hcond
      exact absurd hcond h

/-- Witness for C8: a write at offset 0 (the `num_pages` half of the
config area) is ignored. -/
theorem write_config_only_actual_pages_witness :
    Balloon.write_config ⟨10, 20⟩ 0 [1, 2, 3, 4] = ⟨10, 20⟩ :=
  (write_config_only_actual_pages ⟨10, 20⟩ 0 [1, 2, 3, 4]).2 (by decide)

/-- **C9**: `Balloon::read_config` writes only bytes drawn from the
8-byte config area: an offset ≥ 8 leaves the destination entirely
unchanged, and otherwise the copied range is a prefix of
`config[offset..]` clamped so that `offset + copied ≤ 8` (in
particular nothing is copied when `offset + data.len` overflows a
`u64`), with the rest of the destination unchanged. -/
theorem read_config_clamped (cfg : BalloonConfig) (offset : Nat) (data : List Nat) :
    (8 ≤ offset → Balloon.read_config cfg offset data = data) ∧
    (offset < 8 → ∃ k, offset + k ≤ 8 ∧ k ≤ data.length ∧
      Balloon.read_config cfg offset data
        = ((configBytes cfg).drop offset).take k ++ data.drop k) := by
  constructor
  · intro h
    unfold Balloon.read_config
    rw [if_pos h]
  · intro h
    unfold Balloon.read_config
    rw [if_neg (by omega)]
    cases hadd : checkedAdd64 offset data.length with
    | none =>
      refine ⟨0, by omega, Nat.zero_le _, ?_⟩
      simp
    | some e =>
      dsimp only
      have hclen : (configBytes cfg).length = 8 := by
        unfold configBytes u32bytes
        simp
      have ht : min e 8 - offset ≤ 8 - offset := by omega
      refine ⟨min (min e 8 - offset) data.length, by omega, Nat.min_le_right _ _, ?_⟩
      unfold sliceWrite
      have hsl : (((configBytes cfg).drop offset).take (min e 8 - offset)).length
          = min e 8 - offset := by
        rw [List.length_take, List.length_drop, hclen]
        omega
      rw [List.take_take, hsl, Nat.min_comm data.length (min e 8 - offset)]

/-- Witness for C9: reading 4 bytes at offset 6 copies only the last
two config bytes and leaves the tail of the destination untouched. -/
theorem read_config_clamped_witness :
    ∃ k, 6 + k ≤ 8 ∧ k ≤ 4 ∧
      Balloon.read_config ⟨258, 772⟩ 6 [9, 9, 9, 9]
        = ((configBytes ⟨258, 772⟩).drop 6).take k ++ [9, 9, 9, 9].drop k :=
  (read_config_clamped ⟨258, 772⟩ 6 [9, 9, 9, 9]).2 (by decide)

/-- The value read by `read_i32` always lies in the `i32` range. -/
theorem i32ofLe_range (b0 b1 b2 b3 : Nat) :
    -(I32M : Int) ≤ i32ofLe b0 b1 b2 b3 ∧ i32ofLe b0 b1 b2 b3 < (I32M : Int) := by
  have hu : le32 b0 b1 b2 b3 < U32M := by
    unfold le32 U32M
    have h0 : b0 % 256 < 256 := Nat.mod_lt _ (by omega)
    have h1 : b1 % 256 < 256 := Nat.mod_lt _ (by omega)
    have h2 : b2 % 256 < 256 := Nat.mod_lt _ (by omega)
    have h3 : b3 % 256 < 256 := Nat.mod_lt _ (by omega)
    omega
  unfold i32ofLe
  dsimp only
  split
  · next hlt =>
    unfold I32M U32M at *
    omega
  · next hge =>
    push_neg at hge
    unfold I32M U32M at *
    omega

/-- Truncating a `usize` below `2^31` to `i32` is the identity. -/
theorem usizeAsI32_small (n : Nat) (h : n < I32M) : usizeAsI32 n = (n : Int) := by
  unfold usizeAsI32
  dsimp only
  rw [Nat.mod_eq_of_lt (by unfold I32M U32M at *; omega), if_pos h]

/-- **C10 counterexample**: the command `increment = i32::MIN`
(little-endian bytes `[0,0,0,0x80]`) is negative and its absolute value
`2^31` exceeds `num_pages = 0`, yet the handler does *not* skip it:
release-mode `i32::abs` wraps `i32::MIN` to itself, the guard
`increment.abs() > num_pages` fails, `num_pages` wraps to
`2^64 - 2^31`, and a config-changed interrupt is signalled. -/
theorem balloon_deflate_underflow_counterexample :
    i32ofLe 0 0 0 128 < 0 ∧
    (i32ofLe 0 0 0 128).natAbs > (0 : Nat) ∧
    (Worker.handleCommandSocket ⟨0, 0⟩ [0, 0, 0, 128] 4).configChanged = true ∧
    (Worker.handleCommandSocket ⟨0, 0⟩ [0, 0, 0, 128] 4).config.num_pages
      = 18446744071562067968 := by
  refine ⟨?_, ?_, ?_, ?_⟩ <;> decide

/-- **C10 (amended)**: for every 4-byte command whose signed increment
is *strictly greater than `i32::MIN`*, if the increment is negative and
its absolute value exceeds the current `num_pages` value then
`num_pages` is left unchanged and no config-changed interrupt is
signalled; and for every such increment `num_pages` never wraps below
zero (the new value is at most the old one). -/
theorem balloon_deflate_guard_amended (cfg : BalloonConfig) (b0 b1 b2 b3 : Nat)
    (hnp : cfg.num_pages < U64M)
    (hneg : i32ofLe b0 b1 b2 b3 < 0)
    (hmin : i32ofLe b0 b1 b2 b3 ≠ -(I32M : Int)) :
    ((i32ofLe b0 b1 b2 b3).natAbs > cfg.num_pages →
      Worker.handleCommandSocket cfg [b0, b1, b2, b3] 4 = ⟨cfg, false⟩) ∧
    (Worker.handleCommandSocket cfg [b0, b1, b2, b3] 4).config.num_pages
      ≤ cfg.num_pages := by
  obtain ⟨hlo, _⟩ := i32ofLe_range b0 b1 b2 b3
  set inc := i32ofLe b0 b1 b2 b3 with hinc
  have habs : i32abs inc = (inc.natAbs : Int) := by
    unfold i32abs
    rw [if_neg hmin]
  have hnabs : (inc.natAbs : Int) = -inc := by omega
  have hnabslt : inc.natAbs < I32M := by
    unfold I32M at *
    omega
  unfold Worker.handleCommandSocket
  rw [if_pos rfl]
  dsimp only
  rw [← hinc, habs]
  constructor
  · intro hA
    rw [if_pos]
    refine ⟨hneg, ?_⟩
    have hsm : cfg.num_pages < I32M := by omega
    rw [usizeAsI32_small cfg.num_pages hsm]
    omega
  · split
    · exact Nat.le_refl _
    · next hg =>
      -- the guard failed although `inc < 0`, so `natAbs inc ≤ usizeAsI32 num_pages`
      have hle : (inc.natAbs : Int) ≤ usizeAsI32 cfg.num_pages := by
        by_contra hcon
        exact hg ⟨hneg, by omega⟩
      have hle' : inc.natAbs ≤ cfg.num_pages := by
        unfold usizeAsI32 at hle
        dsimp only at hle
        split at hle
        · have : cfg.num_pages % U32M ≤ cfg.num_pages := Nat.mod_le _ _
          omega
        · unfold I32M U32M at *
          omega
      have hcast : i32AsUsize inc = U64M - inc.natAbs := by
        unfold i32AsUsize
        unfold I32M U64M at *
        omega
      dsimp only
      rw [hcast]
      unfold U64M at *
      omega

/-- Witness for C10 (amended): increment −10 against `num_pages = 5`
is skipped without touching the config. -/
theorem balloon_deflate_guard_amended_witness :
    Worker.handleCommandSocket ⟨5, 0⟩ [246, 255, 255, 255] 4 = ⟨⟨5, 0⟩, false⟩ :=
  (balloon_deflate_guard_amended ⟨5, 0⟩ 246 255 255 255 (by decide) (by decide)
    (by decide)).1 (by decide)

/-- Helper: polling an in-flight future whose operation is still
pending returns `Pending` and only advances the resource's poll
counter. -/
theorem poll_wait_pending (src : ScriptedSource) (tok : Token) (w : World)
    (h : src.ready w.cPolls = none) :
    ReadVec.poll src ⟨.wait tok ()⟩ w
      = (.pending, ⟨.wait tok ()⟩, { w with cPolls := w.cPolls + 1 }) := by
  simp [ReadVec.poll, UringFutState.advance, poll_complete, h]

/-- **C3**: a `ReadVec` future whose submission is rejected resolves
with the submission error on its very first poll: the state machine
never reaches *InFlight* (it is left at the transient `processing`
value by the early return), no operation is recorded as outstanding,
and the world is untouched (no cleanup). -/
theorem readvec_submit_error_first_poll (src : ScriptedSource) (fo : Nat) (w : World)
    (hs : src.submitOk = false) :
    ReadVec.poll src (ReadVec.new fo) w
      = (.ready (.error src.submitErr), ⟨.processing⟩, w) := by
  simp [ReadVec.poll, ReadVec.new, UringFutState.advance, ReadVec.submitFn,
    read_to_mem, hs]

/-- Witness for C3: the rejecting source resolves immediately with its
submission error. -/
theorem readvec_submit_error_first_poll_witness :
    ReadVec.poll failSrc (ReadVec.new 5) (World.new 7 [1, 2, 3])
      = (.ready (.error ⟨11⟩), ⟨.processing⟩, World.new 7 [1, 2, 3]) := by
  have h := readvec_submit_error_first_poll failSrc 5 (World.new 7 [1, 2, 3]) rfl
  rw [h]
  rfl

/-- **C4**: on its first resumption the future submits exactly one
scatter descriptor, `{offset: 0, len: buffer length}`, at the
caller-supplied file offset, clones the wrapper for the resource
(strong count +1) and moves to *InFlight*. -/
theorem readvec_submits_single_descriptor (src : ScriptedSource) (fo : Nat) (w : World)
    (hs : src.submitOk = true) :
    ReadVec.poll src (ReadVec.new fo) w
      = (.pending, ⟨.wait 0 ()⟩,
         { w with refs := w.refs + 1,
                  pendingOp := some (fo, [⟨0, w.buf.data.length⟩]) }) := by
  simp [ReadVec.poll, ReadVec.new, UringFutState.advance, ReadVec.submitFn,
    read_to_mem, hs]

/-- Witness for C4: first poll against the zero source records the
single full-length descriptor at offset 0. -/
theorem readvec_submits_single_descriptor_witness :
    ReadVec.poll zeroSrc (ReadVec.new 9) (World.new 7 [1, 2, 3])
      = (.pending, ⟨.wait 0 ()⟩, ⟨⟨7, [1, 2, 3]⟩, 2, some (9, [⟨0, 3⟩]), 0⟩) := by
  have h := readvec_submits_single_descriptor zeroSrc 9 (World.new 7 [1, 2, 3]) rfl
  rw [h]
  rfl

/-- **C5**: when the submitted operation completes with a
kernel-reported failure, the future resolves with that error; the
buffer is not returned (the result carries no allocation) and both the
resource's reference and the future's carry reference are dropped, so
with no outside clone the wrapper's count reaches zero and the
allocation is freed rather than recovered. -/
theorem readvec_completion_error_forfeits_buffer (src : ScriptedSource) (tok : Token)
    (e : UErr) (w : World)
    (hr : src.ready w.cPolls = some (.error e)) :
    ReadVec.poll src ⟨.wait tok ()⟩ w
      = (.ready (.error e), ⟨.done⟩,
         { w with refs := w.refs - 1 - 1, pendingOp := none,
                  cPolls := w.cPolls + 1 }) := by
  obtain ⟨buf, refs, po, cp⟩ := w
  cases po <;>
    simp_all [ReadVec.poll, UringFutState.advance, poll_complete]

/-- Witness for C5: completion failure yields the completion error and
drops the wrapper to zero references. -/
theorem readvec_completion_error_forfeits_buffer_witness :
    ReadVec.poll errSrc ⟨.wait 0 ()⟩ ⟨⟨7, [85, 85]⟩, 2, some (0, [⟨0, 2⟩]), 0⟩
      = (.ready (.error ⟨77⟩), ⟨.done⟩, ⟨⟨7, [85, 85]⟩, 0, none, 1⟩) := by
  have h := readvec_completion_error_forfeits_buffer errSrc 0 ⟨77⟩
    ⟨⟨7, [85, 85]⟩, 2, some (0, [⟨0, 2⟩]), 0⟩ rfl
  rw [h]
  rfl

/-- **C2**: on successful completion the future reclaims the
allocation only if the wrapper then holds exactly one strong reference
(count 2 before the resource's reference is released); any additional
reference at that moment makes `Rc::try_unwrap(..).expect("too many
refs on vec")` panic — a loud process-level assertion, not a
recoverable error. -/
theorem readvec_unwrap_refcount (src : ScriptedSource) (tok : Token) (n : Nat)
    (w : World) (hr : src.ready w.cPolls = some (.ok n)) :
    (w.refs = 2 → ∃ a, (ReadVec.poll src ⟨.wait tok ()⟩ w).1 = .ready (.ok a)) ∧
    (3 ≤ w.refs → (ReadVec.poll src ⟨.wait tok ()⟩ w).1
        = .fatal "too many refs on vec") := by
  obtain ⟨buf, refs, po, cp⟩ := w
  constructor
  · intro h2
    subst h2
    cases po <;>
      simp_all [ReadVec.poll, UringFutState.advance, poll_complete]
  · intro h3
    dsimp only at h3
    have hne : ¬(refs - 1 = 1) := by omega
    cases po <;>
      simp_all [ReadVec.poll, UringFutState.advance, poll_complete]

/-- Witness for C2: an artificial third reference (future + resource +
outside clone) at the moment of completion triggers the fatal
assertion. -/
theorem readvec_unwrap_refcount_witness :
    (ReadVec.poll zeroSrc ⟨.wait 0 ()⟩
        ((World.new 7 [1, 2]).cloneWrapper.cloneWrapper)).1
      = .fatal "too many refs on vec" :=
  (readvec_unwrap_refcount zeroSrc 0 32
    ((World.new 7 [1, 2]).cloneWrapper.cloneWrapper) rfl).2 (by decide)

/-- **C6**: with an in-flight, not-yet-completed operation, any number
`m` of repeated polls each return `Pending`, leave the state machine at
*InFlight* with the same token, and change nothing in the world but the
resource's poll counter — in particular the buffer's contents are
unchanged. -/
theorem readvec_pending_polls_frame (src : ScriptedSource) (tok : Token) (m : Nat) :
    ∀ w : World, (∀ j, j < m → src.ready (w.cPolls + j) = none) →
      pollIter src m ⟨.wait tok ()⟩ w
        = (List.replicate m .pending, ⟨.wait tok ()⟩,
           { w with cPolls := w.cPolls + m }) := by
  induction m with
  | zero =>
    intro w _
    simp [pollIter]
  | succ m ih =>
    intro w h
    have h0 : src.ready w.cPolls = none := by
      have := h 0 (by omega)
      simpa using this
    have hstep := poll_wait_pending src tok w h0
    have hrest := ih { w with cPolls := w.cPolls + 1 } (by
      intro j hj
      have e : w.cPolls + 1 + j = w.cPolls + (j + 1) := by omega
      dsimp only
      rw [e]
      exact h (j + 1) (by omega))
    simp only [pollIter, hstep, hrest, List.replicate_succ]
    have e2 : w.cPolls + 1 + m = w.cPolls + (m + 1) := by omega
    simp [e2]

/-- Witness for C6: three polls against the stalled source all return
`Pending` and leave the buffer bytes intact. -/
theorem readvec_pending_polls_frame_witness :
    pollIter stallSrc 3 ⟨.wait 0 ()⟩ ⟨⟨7, [1, 2, 3, 4]⟩, 2, some (9, [⟨0, 4⟩]), 0⟩
      = (List.replicate 3 .pending, ⟨.wait 0 ()⟩,
         ⟨⟨7, [1, 2, 3, 4]⟩, 2, some (9, [⟨0, 4⟩]), 3⟩) := by
  have h := readvec_pending_polls_frame stallSrc 0 3
    ⟨⟨7, [1, 2, 3, 4]⟩, 2, some (9, [⟨0, 4⟩]), 0⟩ (fun j _ => rfl)
  rw [h]

/-- **C7**: every `ReadVec` future is created in the *NotStarted* state
holding its submission arguments — independent of any prior operation's
outcome, so a second sequential read begins at *NotStarted* regardless
of the first's result — and each poll moves the completion state only
forward in the progression NotStarted → InFlight → terminal, never back
to an earlier state: the rank never decreases, a successful submission
moves *NotStarted* to *InFlight*, and from *InFlight* the state either
stays or becomes the terminal shape. -/
theorem readvec_state_machine_one_directional :
    (∀ fo : Nat, (ReadVec.new fo).state = UringFutState.init fo) ∧
    (∀ (src : ScriptedSource) (rv : ReadVec) (w : World),
      rv.state.rank ≤ ((ReadVec.poll src rv w).2.1).state.rank) ∧
    (∀ (src : ScriptedSource) (fo : Nat) (w : World), src.submitOk = true →
      ((ReadVec.poll src ⟨.init fo⟩ w).2.1).state = UringFutState.wait 0 ()) ∧
    (∀ (src : ScriptedSource) (tok : Token) (w : World),
      ((ReadVec.poll src ⟨.wait tok ()⟩ w).2.1).state = UringFutState.wait tok ()
        ∨ ((ReadVec.poll src ⟨.wait tok ()⟩ w).2.1).state = UringFutState.done) := by
  refine ⟨fun _ => rfl, ?_, ?_, ?_⟩
  · intro src rv w
    obtain ⟨st⟩ := rv
    obtain ⟨buf, refs, po, cp⟩ := w
    cases st with
    | init fo =>
      cases hb : src.submitOk <;>
        simp [ReadVec.poll, UringFutState.advance, ReadVec.submitFn, read_to_mem,
          UringFutState.rank, hb]
    | wait tok c =>
      cases c
      cases hrr : src.ready cp with
      | none =>
        simp [ReadVec.poll, UringFutState.advance, poll_complete, UringFutState.rank, hrr]
      | some r =>
        cases r <;> cases po <;>
          by_cases h2 : refs = 2 <;>
            simp [ReadVec.poll, UringFutState.advance, poll_complete,
              UringFutState.rank, hrr, h2]
    | done =>
      simp [ReadVec.poll, UringFutState.advance, UringFutState.rank]
    | processing =>
      simp [ReadVec.poll, UringFutState.advance, UringFutState.rank]
  · intro src fo w hb
    simp [ReadVec.poll, UringFutState.advance, ReadVec.submitFn, read_to_mem, hb]
  · intro src tok w
    obtain ⟨buf, refs, po, cp⟩ := w
    cases hrr : src.ready cp with
    | none =>
      left
      simp [ReadVec.poll, UringFutState.advance, poll_complete, hrr]
    | some r =>
      right
      cases r <;> cases po <;>
        by_cases h2 : refs = 2 <;>
          simp [ReadVec.poll, UringFutState.advance, poll_complete, hrr, h2]

/-- Witness for C7: a fresh future against the accepting source
reaches *InFlight* on its first poll. -/
theorem readvec_state_machine_one_directional_witness :
    ((ReadVec.poll zeroSrc ⟨.init 5⟩ (World.new 1 [9])).2.1).state
      = UringFutState.wait 0 () :=
  readvec_state_machine_one_directional.2.2.1 zeroSrc 5 (World.new 1 [9]) rfl

/-- One unfolding step of the driver. -/
theorem driveRV_succ (src : ScriptedSource) (fuel : Nat) (rv : ReadVec) (w : World) :
    driveRV src (fuel + 1) rv w
      = match ReadVec.poll src rv w with
        | (.pending, rv', w') => driveRV src fuel rv' w'
        | out => some out := rfl

/-- Helper: a streak of `m` still-pending completion polls only burns
fuel and advances the resource's poll counter. -/
theorem drive_pending (src : ScriptedSource) (tok : Token) (m : Nat) :
    ∀ (r : Nat) (w : World), (∀ j, j < m → src.ready (w.cPolls + j) = none) →
      driveRV src (m + r) ⟨.wait tok ()⟩ w
        = driveRV src r ⟨.wait tok ()⟩ { w with cPolls := w.cPolls + m } := by
  induction m with
  | zero =>
    intro r w _
    simp
  | succ m ih =>
    intro r w h
    have h0 : src.ready w.cPolls = none := by
      have := h 0 (by omega)
      simpa using this
    have hstep := poll_wait_pending src tok w h0
    have e1 : m + 1 + r = (m + r) + 1 := by omega
    rw [e1, driveRV_succ, hstep]
    have hIH := ih r { w with cPolls := w.cPolls + 1 } (by
      intro j hj
      have e : w.cPolls + 1 + j = w.cPolls + (j + 1) := by omega
      dsimp only
      rw [e]
      exact h (j + 1) (by omega))
    dsimp only
    rw [hIH]
    have e2 : w.cPolls + 1 + m = w.cPolls + (m + 1) := by omega
    simp [e2]

/-- **C1**: for every scripted resource that accepts the submission and
eventually completes with `Ok n` (after `k` pending completion polls),
every byte offset, and every owned buffer, driving the `ReadVec` future
to completion yields `Ok` carrying the *same allocation* the caller
supplied — the identity tag is unchanged, so it is the identical
underlying storage, not a copy — with its contents filled by the bytes
the resource read (the single full-length descriptor at relative offset
0, filled from file offset `fo`), and the wrapper's reference count
drops to zero as the allocation is handed back. -/
theorem readvec_returns_same_allocation (src : ScriptedSource)
    (fo bufId k n : Nat) (data : List Nat)
    (hs : src.submitOk = true)
    (hp : ∀ j, j < k → src.ready j = none)
    (hr : src.ready k = some (.ok n)) :
    driveRV src (k + 2) (ReadVec.new fo) (World.new bufId data)
      = some (.ready (.ok ⟨bufId, writeDescs src.content fo [⟨0, data.length⟩] n data⟩),
              ⟨.done⟩,
              ⟨⟨bufId, writeDescs src.content fo [⟨0, data.length⟩] n data⟩,
               0, none, k + 1⟩) := by
  have h1 : ReadVec.poll src (ReadVec.new fo) (World.new bufId data)
      = (.pending, ⟨.wait 0 ()⟩,
         ⟨⟨bufId, data⟩, 2, some (fo, [⟨0, data.length⟩]), 0⟩) := by
    simp [ReadVec.poll, ReadVec.new, World.new, UringFutState.advance,
      ReadVec.submitFn, read_to_mem, hs]
  have h3 : ReadVec.poll src ⟨.wait 0 ()⟩
        ⟨⟨bufId, data⟩, 2, some (fo, [⟨0, data.length⟩]), k⟩
      = (.ready (.ok ⟨bufId, writeDescs src.content fo [⟨0, data.length⟩] n data⟩),
         ⟨.done⟩,
         ⟨⟨bufId, writeDescs src.content fo [⟨0, data.length⟩] n data⟩,
          0, none, k + 1⟩) := by
    simp [ReadVec.poll, UringFutState.advance, poll_complete, hr]
  have e0 : k + 2 = (k + 1) + 1 := rfl
  rw [e0, driveRV_succ, h1]
  dsimp only
  have h2 := drive_pending src 0 k 1
    ⟨⟨bufId, data⟩, 2, some (fo, [⟨0, data.length⟩]), 0⟩ (by
      intro j hj
      simpa using hp j hj)
  rw [h2]
  dsimp only
  rw [show (0 : Nat) + k = k from by omega]
  rw [show (1 : Nat) = 0 + 1 from rfl, driveRV_succ, h3]

/-- Witness for C1 (the spec's scenario): reading 32 bytes at offset 0
from the always-zero source into a 32-byte buffer of `0x55` yields an
all-zero 32-byte buffer with the same identity tag (`7`) as the input
allocation. -/
theorem readvec_returns_same_allocation_witness :
    driveRV zeroSrc 2 (ReadVec.new 0) (World.new 7 (List.replicate 32 85))
      = some (.ready (.ok ⟨7, List.replicate 32 0⟩), ⟨.done⟩,
              ⟨⟨7, List.replicate 32 0⟩, 0, none, 1⟩) := by
  have h := readvec_returns_same_allocation zeroSrc 0 7 0 32
    (List.replicate 32 85) rfl (fun j hj => absurd hj (Nat.not_lt_zero j)) rfl
  rw [h]
  rfl

end Crosvm
